import Mathlib

/-!
# Verification of the perps-indexer core against its specification

Shallow embedding of the core data model and algorithms of the
`perps-indexer` repository (Rust): the error taxonomy and retry loop
(`src/core/src/error.rs`, `src/core/src/backoff.rs`), the multi-schema
fill decoder and hourly cursor walker
(`src/indexer/src/ingest/s3_source.rs`), the idempotent bulk writer
(`src/indexer/src/store.rs`) and the pipeline checkpoint logic
(`src/indexer/src/pipeline.rs`).

Modelling conventions:
* UTC instants (`chrono::DateTime<Utc>`) are integers, milliseconds
  since the Unix epoch.
* Rust `f64` prices/sizes and the database `NUMERIC(20,10)` columns
  are modelled as `ℚ`; decimal-string parsing is modelled on the
  plain decimal fragment of `str::parse::<f64>` (exact values, which
  is faithful on the inputs the proofs evaluate).
* The fills table is the ordered list of its rows; `INSERT … ON
  CONFLICT (…) DO NOTHING` inserts rows in statement order, skipping
  any row whose conflict key is already present.
* Market-id resolution (`MarketRegistry::get_or_create_market`) is a
  stable symbol-to-id function, matching the cache + stored-routine
  behaviour in `src/indexer/src/market.rs`.
-/

namespace PerpsIndexer

/-! ## Error taxonomy — src/core/src/error.rs -/

/-- The error enum from `src/core/src/error.rs`.  Payloads are kept
(as strings / numbers) but play no role in the kind-based dispositions. -/
inductive Error where
  | Config (msg : String)
  | Database (msg : String)
  | Http (msg : String)
  | Serialization (msg : String)
  | Ingest (source_name details : String)
  | Pipeline (msg : String)
  | RateLimit (retry_after_secs : ℕ)
  | Checkpoint (msg : String)
  | Validation (msg : String)
  | IoError (msg : String)
  | Internal (msg : String)
deriving DecidableEq, Repr

/-- `Error::is_retryable` from `src/core/src/error.rs` lines 42–47:
`matches!(self, Error::Database(_) | Error::Http(_) | Error::RateLimit { .. } | Error::Io(_))`. -/
def Error.is_retryable : Error → Bool
  | .Database _ => true
  | .Http _ => true
  | .RateLimit _ => true
  | .IoError _ => true
  | _ => false

/-- `Error::is_fatal` from `src/core/src/error.rs` lines 49–51. -/
def Error.is_fatal : Error → Bool
  | .Config _ => true
  | .Validation _ => true
  | _ => false

/-! ## Decoder — src/indexer/src/ingest/s3_source.rs

The decoder turns newline-delimited JSON of three schema generations
into unified `Fill` records.  JSON lexing is external (`serde_json`);
the embedding starts from per-line decoded payloads, with a schema
mismatch standing for a serde failure on that line. -/

/-- Value of a non-empty list of decimal digit characters. -/
def digitsVal (l : List Char) : ℕ :=
  l.foldl (fun a c => a * 10 + (c.toNat - 48)) 0

/-- Decimal-string parsing, modelling the plain decimal fragment of
Rust `str::parse::<f64>`: optional sign, integer digits, optional
fractional digits, at least one digit overall.  Values are exact
rationals (the floating-point rounding of `f64` is immaterial to the
claims proved below, which evaluate on exactly representable inputs). -/
def parseDecimal (s : String) : Option ℚ :=
  let (sign, body) : ℤ × List Char :=
    match s.data with
    | '-' :: r => (-1, r)
    | '+' :: r => (1, r)
    | r => (1, r)
  let intPart := body.takeWhile (fun c => c.isDigit)
  let rest := body.dropWhile (fun c => c.isDigit)
  match rest with
  | [] =>
    if intPart.isEmpty then none
    else some ((sign * (digitsVal intPart : ℤ) : ℤ) : ℚ)
  | '.' :: fracPart =>
    if fracPart.all (fun c => c.isDigit) ∧ ¬(intPart.isEmpty ∧ fracPart.isEmpty) then
      some (((sign : ℚ) * ((digitsVal intPart : ℚ) +
        (digitsVal fracPart : ℚ) / ((10 : ℚ) ^ fracPart.length))))
    else none
  | _ => none

/-- Uppercasing, modelling Rust `str::to_uppercase` (character-wise;
faithful on the ASCII side tokens the decoder compares against). -/
def toUpperStr (s : String) : String := ⟨s.data.map Char.toUpper⟩

/-- Decidable equality of `Except` results (structural). -/
instance {e a : Type _} [DecidableEq e] [DecidableEq a] : DecidableEq (Except e a) := fun x y =>
  match x, y with
  | .ok v, .ok w =>
    if h : v = w then .isTrue (by rw [h]) else .isFalse (by intro hh; cases hh; exact h rfl)
  | .ok _, .error _ => .isFalse (by intro h; cases h)
  | .error _, .ok _ => .isFalse (by intro h; cases h)
  | .error v, .error w =>
    if h : v = w then .isTrue (by rw [h]) else .isFalse (by intro hh; cases hh; exact h rfl)

/-- Lower bound (ms) of the range accepted by chrono's
`DateTime::<Utc>::from_timestamp_millis` (≈ year −262143). -/
def chronoMinMillis : ℤ := -8334601228800000

/-- Upper bound (ms) of the range accepted by chrono's
`DateTime::<Utc>::from_timestamp_millis` (≈ year 262142). -/
def chronoMaxMillis : ℤ := 8210266876799999

/-- `DateTime::<Utc>::from_timestamp_millis`: `some` exactly on
chrono's representable range, modelled as an interval of epoch-millis. -/
def fromTimestampMillis (t : ℤ) : Option ℤ :=
  if chronoMinMillis ≤ t ∧ t ≤ chronoMaxMillis then some t else none

/-- `TradeSide` from `src/indexer/src/model.rs`. -/
inductive TradeSide where
  | Buy
  | Sell
deriving DecidableEq, Repr

/-- `Fill` from `src/indexer/src/model.rs` (`price`, `size`, `fee`,
`closed_pnl` are `f64` in the source, modelled as `ℚ`; `timestamp` is
epoch-millis). -/
structure Fill where
  user_address : String
  coin : String
  side : TradeSide
  price : ℚ
  size : ℚ
  fee : Option ℚ
  closed_pnl : Option ℚ
  timestamp : ℤ
  block_number : Option ℤ
  source_id : Option String
deriving DecidableEq, Repr

/-- Schema v3 per-event payload (`FillData` in s3_source.rs). -/
structure FillData where
  px : String
  sz : String
  coin : String
  side : String
  time : ℤ
  fee : Option String
  closed_pnl : Option String
deriving DecidableEq, Repr

/-- Schema v3 per-line payload (`FillByBlock`): `events` is a list of
`(user_address, fill_data)` pairs. -/
structure FillByBlock where
  events : List (String × FillData)
  block_number : ℤ
  block_time : Option String
  local_time : Option String
deriving DecidableEq, Repr

/-- Schema v2 per-line payload (`NodeFill`). -/
structure NodeFill where
  user : String
  px : String
  sz : String
  coin : String
  side : String
  time : ℤ
  fee : Option String
  closed_pnl : Option String
deriving DecidableEq, Repr

/-- Schema v1 `side_info` element (`SideInfo`). -/
structure SideInfo where
  user : String
  side : String
  fee : Option String
deriving DecidableEq, Repr

/-- Schema v1 per-line payload (`NodeTrade`). -/
structure NodeTrade where
  px : String
  sz : String
  coin : String
  time : ℤ
  side_info : List SideInfo
deriving DecidableEq, Repr

/-- Side normalisation, the `match … .to_uppercase() …` repeated
verbatim in `parse_fill_data`, `parse_node_fill` and `parse_trade_fill`
(s3_source.rs lines 218–222, 251–255, 288–292): `BUY`/`B` map to Buy,
`SELL`/`S`/`A` map to Sell (A = ask), anything else is a validation
error. -/
def parse_side (raw : String) : Except Error TradeSide :=
  match toUpperStr raw with
  | "BUY" | "B" => Except.ok TradeSide.Buy
  | "SELL" | "S" | "A" => Except.ok TradeSide.Sell
  | _ => Except.error (Error.Validation ("Invalid side: " ++ raw))

/-- `S3Source::parse_fill_data` (s3_source.rs lines 212–248): side
normalisation, decimal parsing of `px`/`sz`, lossy optional parsing of
`fee`/`closed_pnl`, timestamp range check. -/
def parse_fill_data (user_address : String) (fill : FillData)
    (block_number : Option ℤ) : Except Error Fill := do
  let side ← parse_side fill.side
  let price ←
    match parseDecimal fill.px with
    | some p => Except.ok p
    | none => Except.error (Error.Validation ("Invalid price: " ++ fill.px))
  let size ←
    match parseDecimal fill.sz with
    | some z => Except.ok z
    | none => Except.error (Error.Validation ("Invalid size: " ++ fill.sz))
  let fee := fill.fee.bind parseDecimal
  let closed_pnl := fill.closed_pnl.bind parseDecimal
  let timestamp ←
    match fromTimestampMillis fill.time with
    | some t => Except.ok t
    | none => Except.error (Error.Validation "Invalid timestamp")
  Except.ok
    { user_address := user_address, coin := fill.coin, side := side,
      price := price, size := size, fee := fee, closed_pnl := closed_pnl,
      timestamp := timestamp, block_number := block_number, source_id := none }

/-- `S3Source::parse_node_fill` (s3_source.rs lines 250–281). -/
def parse_node_fill (node_fill : NodeFill) : Except Error Fill := do
  let side ← parse_side node_fill.side
  let price ←
    match parseDecimal node_fill.px with
    | some p => Except.ok p
    | none => Except.error (Error.Validation ("Invalid price: " ++ node_fill.px))
  let size ←
    match parseDecimal node_fill.sz with
    | some z => Except.ok z
    | none => Except.error (Error.Validation ("Invalid size: " ++ node_fill.sz))
  let fee := node_fill.fee.bind parseDecimal
  let closed_pnl := node_fill.closed_pnl.bind parseDecimal
  let timestamp ←
    match fromTimestampMillis node_fill.time with
    | some t => Except.ok t
    | none => Except.error (Error.Validation "Invalid timestamp")
  Except.ok
    { user_address := node_fill.user, coin := node_fill.coin, side := side,
      price := price, size := size, fee := fee, closed_pnl := closed_pnl,
      timestamp := timestamp, block_number := none, source_id := none }

/-- `S3Source::parse_trade_fill` (s3_source.rs lines 283–317). -/
def parse_trade_fill (trade : NodeTrade) (si : SideInfo) : Except Error Fill := do
  let side ← parse_side si.side
  let price ←
    match parseDecimal trade.px with
    | some p => Except.ok p
    | none => Except.error (Error.Validation ("Invalid price: " ++ trade.px))
  let size ←
    match parseDecimal trade.sz with
    | some z => Except.ok z
    | none => Except.error (Error.Validation ("Invalid size: " ++ trade.sz))
  let fee := si.fee.bind parseDecimal
  let timestamp ←
    match fromTimestampMillis trade.time with
    | some t => Except.ok t
    | none => Except.error (Error.Validation "Invalid timestamp")
  Except.ok
    { user_address := si.user, coin := trade.coin, side := side,
      price := price, size := size, fee := fee, closed_pnl := none,
      timestamp := timestamp, block_number := none, source_id := none }

/-- Epoch-millis of 2025-07-27T00:00:00Z: from this instant on,
archives use schema v3 (`node_fills_by_block`). -/
def schemaV3From : ℤ := 1753574400000

/-- Epoch-millis of 2025-05-25T00:00:00Z: from this instant on (and
before `schemaV3From`), archives use schema v2 (`node_fills`). -/
def schemaV2From : ℤ := 1748131200000

/-- A decoded archive line, one constructor per schema generation.
`S3Source::parse_fills` deserializes each line according to the
archive date alone; feeding a line of the wrong shape to a branch
stands for the corresponding serde failure. -/
inductive Line where
  | byBlock (b : FillByBlock)
  | nodeFill (nf : NodeFill)
  | nodeTrade (t : NodeTrade)
deriving DecidableEq, Repr

/-- One line of `S3Source::parse_fills` (s3_source.rs lines 164–207):
v3 lines contribute the fills of their events, where an event that
fails `parse_fill_data` is skipped (debug log); v2/v1 lines propagate
any per-record error, aborting the batch; a line that does not
deserialize as the schema selected by `date` is a validation error. -/
def decode_line (date : ℤ) (line : Line) : Except Error (List Fill) :=
  if schemaV3From ≤ date then
    match line with
    | .byBlock b =>
      Except.ok (b.events.foldl
        (fun acc e =>
          match parse_fill_data e.1 e.2 (some b.block_number) with
          | .ok fill => acc ++ [fill]
          | .error _ => acc)
        [])
    | _ => Except.error (Error.Validation "Failed to parse FillByBlock")
  else if schemaV2From ≤ date then
    match line with
    | .nodeFill nf => do
      let fill ← parse_node_fill nf
      Except.ok [fill]
    | _ => Except.error (Error.Validation "Failed to parse NodeFill")
  else
    match line with
    | .nodeTrade t =>
      t.side_info.foldlM
        (fun acc si => do
          let fill ← parse_trade_fill t si
          Except.ok (acc ++ [fill]))
        []
    | _ => Except.error (Error.Validation "Failed to parse NodeTrade")

/-- `S3Source::parse_fills` over the (non-empty) lines of a
decompressed archive hour: concatenates per-line fills in order, the
first failing line aborting the whole batch. -/
def parse_fills (date : ℤ) (lines : List Line) : Except Error (List Fill) :=
  lines.foldlM
    (fun acc line => do
      let fs ← decode_line date line
      Except.ok (acc ++ fs))
    []

/-! ## Fetcher cursor walk — `fetch_page` (s3_source.rs lines 322–374)

The cursor `"YYYYMMDD_H"` is split on `'_'`; the date part is parsed
with chrono's `%Y%m%d`, the hour with `str::parse::<u32>`, and the
position instant is `date.and_hms_opt(hour, 0, 0).unwrap()`.  Dates
are day numbers since 1970-01-01; instants are epoch-millis. -/

/-- Gregorian leap-year rule (chrono's calendar). -/
def isLeapYear (y : ℕ) : Bool :=
  (y % 4 == 0 && y % 100 != 0) || y % 400 == 0

/-- Days in a month of the proleptic Gregorian calendar. -/
def daysInMonth (y m : ℕ) : ℕ :=
  match m with
  | 1 => 31
  | 2 => if isLeapYear y then 29 else 28
  | 3 => 31
  | 4 => 30
  | 5 => 31
  | 6 => 30
  | 7 => 31
  | 8 => 31
  | 9 => 30
  | 10 => 31
  | 11 => 30
  | 12 => 31
  | _ => 0

/-- Civil date → day number since 1970-01-01 (standard
`days_from_civil` computation, as in chrono's calendar). -/
def daysFromCivil (y m d : ℕ) : ℤ :=
  let y' : ℤ := (y : ℤ) - (if m ≤ 2 then 1 else 0)
  let era : ℤ := Int.fdiv y' 400
  let yoe : ℤ := y' - era * 400
  let mp : ℤ := ((m : ℤ) + 9) % 12
  let doy : ℤ := (153 * mp + 2) / 5 + (d : ℤ) - 1
  let doe : ℤ := yoe * 365 + yoe / 4 - yoe / 100 + doy
  era * 146097 + doe - 719468

/-- `str::parse::<u32>` on a plain digit string. -/
def parseNatStr (s : String) : Option ℕ :=
  if s.data ≠ [] && s.data.all (fun c => c.isDigit) then some (digitsVal s.data)
  else none

/-- chrono `NaiveDate::parse_from_str(s, "%Y%m%d")`: eight digits,
calendar-valid year/month/day. -/
def parseDateYYYYMMDD (s : String) : Option ℤ :=
  let cs := s.data
  if cs.length = 8 && cs.all (fun c => c.isDigit) then
    let y := digitsVal (cs.take 4)
    let m := digitsVal ((cs.drop 4).take 2)
    let d := digitsVal ((cs.drop 6).take 2)
    if 1 ≤ m && m ≤ 12 && 1 ≤ d && d ≤ daysInMonth y m then
      some (daysFromCivil y m d)
    else none
  else none

/-- chrono `NaiveDate::and_hms_opt`: `Some` exactly when the clock
triple is valid (hour < 24, minute < 60, second < 60); the value is
the instant (epoch-millis) at that time of day `d`. -/
def and_hms_opt (d : ℤ) (h m s : ℕ) : Option ℤ :=
  if h < 24 && m < 60 && s < 60 then
    some (d * 86400000 + (h : ℤ) * 3600000 + (m : ℤ) * 60000 + (s : ℤ) * 1000)
  else none

/-- The cursor-parsing path of `fetch_page` (s3_source.rs lines
329–342) for a two-part cursor: both component parses must succeed (a
failure is a validation error in the source); the inner `Option` is
the argument of the unchecked `.unwrap()` on
`and_hms_opt(hour, 0, 0)`. -/
def cursor_position (dateStr hourStr : String) : Option (Option ℤ × ℕ) := do
  let d ← parseDateYYYYMMDD dateStr
  let h ← parseNatStr hourStr
  pure (and_hms_opt d h 0 0, h)

/-- The cursor-advance and `has_more` computation of `fetch_page`
(s3_source.rs lines 348–359): `next_hour = current_hour + 1`, rolling
into `next_date = current_date + 1 day` past 23; the next cursor
renders `%Y%m%d` of `next_date` (kept as its day number, i.e. the
floor of the instant by one day) with `next_hour`; `has_more` is
`next_date < Utc::now()` — where `next_date` still carries the current
hour's time of day. -/
def fetch_page_advance (current_date : ℤ) (current_hour : ℕ) (now : ℤ) :
    (ℤ × ℕ) × Bool :=
  let next_hour0 := current_hour + 1
  let next_hour := if 24 ≤ next_hour0 then 0 else next_hour0
  let next_date := if 24 ≤ next_hour0 then current_date + 86400000 else current_date
  ((next_date / 86400000, next_hour), decide (next_date < now))

/-! ## Store — src/indexer/src/store.rs

The `fills` table is its ordered list of rows.  `INSERT … ON CONFLICT
(exchange_id, user_address, market_id, timestamp, price, size) DO
NOTHING` processes rows in statement order and skips any row whose
conflict key is already present (also against rows inserted earlier in
the same statement); `rows_affected` counts the rows actually
inserted.  `MarketRegistry::get_or_create_market` resolves a coin
symbol to a stable market id, modelled as a function. -/

/-- One row of the `fills` table (the columns written by both insert
paths in store.rs). -/
structure FillRow where
  exchange_id : ℤ
  market_id : ℤ
  user_address : String
  side : TradeSide
  price : ℚ
  size : ℚ
  fee : Option ℚ
  closed_pnl : Option ℚ
  timestamp : ℤ
  block_number : Option ℤ
  source_id : Option String
deriving DecidableEq, Repr

/-- The `fills` conflict key
`(exchange_id, user_address, market_id, timestamp, price, size)`. -/
def conflict_key (r : FillRow) : ℤ × String × ℤ × ℤ × ℚ × ℚ :=
  (r.exchange_id, r.user_address, r.market_id, r.timestamp, r.price, r.size)

/-- Whether some row of `t` already carries conflict key `k`. -/
def has_key (t : List FillRow) (k : ℤ × String × ℤ × ℤ × ℚ × ℚ) : Bool :=
  t.any (fun x => decide (conflict_key x = k))

/-- `ON CONFLICT DO NOTHING` semantics for a single row: appended and
counted iff its conflict key is absent. -/
def insert_row (t : List FillRow) (r : FillRow) : List FillRow × ℕ :=
  if has_key t (conflict_key r) then (t, 0) else (t ++ [r], 1)

/-- A multi-row `INSERT … ON CONFLICT DO NOTHING` from accumulator
`acc` (table so far, rows affected so far). -/
def insert_rows_aux (acc : List FillRow × ℕ) (rs : List FillRow) : List FillRow × ℕ :=
  rs.foldl (fun a r => ((insert_row a.1 r).1, a.2 + (insert_row a.1 r).2)) acc

/-- A multi-row `INSERT … ON CONFLICT DO NOTHING` into table `t`:
final table and `rows_affected`. -/
def insert_rows (t : List FillRow) (rs : List FillRow) : List FillRow × ℕ :=
  insert_rows_aux (t, 0) rs

/-- The row written for a `Fill` (both paths write the same columns;
store.rs lines 109–135 and 186–215): `exchange_id` of the store,
market id resolved from `fill.coin`, remaining fields copied. -/
def row_of_fill (exchange_id : ℤ) (market_id : String → ℤ) (f : Fill) : FillRow :=
  { exchange_id := exchange_id, market_id := market_id f.coin,
    user_address := f.user_address, side := f.side, price := f.price,
    size := f.size, fee := f.fee, closed_pnl := f.closed_pnl,
    timestamp := f.timestamp, block_number := f.block_number,
    source_id := f.source_id }

/-- Rust `slice::chunks(n)`: consecutive chunks of length `n` (last
one possibly shorter); no chunks for an empty slice. -/
def chunksOf (n : ℕ) (l : List α) : List (List α) :=
  if h : n = 0 ∨ l.isEmpty then []
  else l.take n :: chunksOf n (l.drop n)
termination_by l.length
decreasing_by
  simp only [List.length_drop]
  have hl : l.isEmpty = false := by
    cases hi : l.isEmpty
    · rfl
    · exact absurd (Or.inr (by simp [hi])) h
  have hpos : 0 < l.length := by
    cases l with
    | nil => simp at hl
    | cons a as => simp
  have hn : n ≠ 0 := fun hh => h (Or.inl hh)
  omega

/-- `Store::bulk_insert_with_copy` (store.rs lines 81–157): stream all
rows of the chunk into a temp table, then a single
`INSERT … SELECT … ON CONFLICT DO NOTHING`; returns `rows_affected`. -/
def bulk_insert_with_copy (exchange_id : ℤ) (market_id : String → ℤ)
    (fills : List Fill) (t : List FillRow) : List FillRow × ℕ :=
  insert_rows t (fills.map (row_of_fill exchange_id market_id))

/-- `Store::bulk_insert_with_values_optimized` (store.rs lines
159–224): sub-chunks of 5 000 rows, one multi-row
`INSERT … VALUES … ON CONFLICT DO NOTHING` per sub-chunk (each its own
transaction), summing `rows_affected`. -/
def bulk_insert_with_values_optimized (exchange_id : ℤ) (market_id : String → ℤ)
    (fills : List Fill) (t : List FillRow) : List FillRow × ℕ :=
  (chunksOf 5000 fills).foldl
    (fun acc batch =>
      ((insert_rows acc.1 (batch.map (row_of_fill exchange_id market_id))).1,
        acc.2 + (insert_rows acc.1 (batch.map (row_of_fill exchange_id market_id))).2))
    (t, 0)

/-- `Store::insert_fills` (store.rs lines 38–67) on the error-free
path: chunks of 50 000, each inserted via the bulk-copy path, summing
the inserted counts.  (The materialized-view refresh after a non-zero
insert does not touch the `fills` table.) -/
def insert_fills (exchange_id : ℤ) (market_id : String → ℤ)
    (fills : List Fill) (t : List FillRow) : List FillRow × ℕ :=
  (chunksOf 50000 fills).foldl
    (fun acc chunk =>
      ((bulk_insert_with_copy exchange_id market_id chunk acc.1).1,
        acc.2 + (bulk_insert_with_copy exchange_id market_id chunk acc.1).2))
    (t, 0)

/-- Generic counted fold: thread a state through `xs`, summing the
per-step counts.  `insert_rows` and both chunked insert paths are
instances of this shape. -/
def cfold {σ α : Type _} (g : σ → α → σ × ℕ) (xs : List α) (s : σ) : σ × ℕ :=
  xs.foldl (fun a x => ((g a.1 x).1, a.2 + (g a.1 x).2)) (s, 0)

/-! ## Pipeline checkpoint logic — src/indexer/src/pipeline.rs -/

/-- `Checkpoint` from `src/indexer/src/model.rs` (timestamps as
epoch-millis; the `serde_json::Value` metadata blob is opaque). -/
structure Checkpoint where
  source : String
  cursor : Option String
  last_record_ts : Option ℤ
  last_block_number : Option ℤ
  records_processed : ℤ
  updated_at : ℤ
  metadata : Option String
deriving DecidableEq, Repr

/-- `IngestBatch` from `src/indexer/src/model.rs`. -/
structure IngestBatch where
  fills : List Fill
  cursor : Option String
  has_more : Bool
  bytes_downloaded : Option ℕ
deriving DecidableEq, Repr

/-- The checkpoint-update step of the backfill consumer
(pipeline.rs lines 145–159): update only when the batch has a last
fill whose timestamp is ≥ the checkpoint's current `last_record_ts`
(or the checkpoint has none); then overwrite timestamp, block, cursor
and cumulative count.  The returned flag is this batch's
`should_update_checkpoint`. -/
def backfill_update_checkpoint (cp : Checkpoint) (total_processed : ℤ)
    (batch : IngestBatch) : Checkpoint × Bool :=
  let should_update :=
    match batch.fills.getLast? with
    | some last =>
      match cp.last_record_ts with
      | none => true
      | some ts => decide (ts ≤ last.timestamp)
    | none => false
  if should_update then
    let cp1 :=
      match batch.fills.getLast? with
      | some last =>
        { cp with last_record_ts := some last.timestamp,
                  last_block_number := last.block_number }
      | none => cp
    ({ cp1 with cursor := batch.cursor, records_processed := total_processed }, true)
  else (cp, false)

/-- The backfill consumer loop over a sequence of `(batch, running
total)` pairs, threading the checkpoint (pipeline.rs lines 124–230,
checkpoint aspects only). -/
def backfill_consume (cp : Checkpoint) : List (IngestBatch × ℤ) → Checkpoint
  | [] => cp
  | (b, tp) :: rest => backfill_consume (backfill_update_checkpoint cp tp b).1 rest

/-- One successful cycle of `run_continuous` (pipeline.rs lines
309–329): `current_start` moves to the batch's last-fill timestamp (if
any), the cursor moves to the batch's cursor, and a checkpoint with
`last_record_ts = Some(current_start)` is saved unconditionally.
Returns (new current_start, new cursor, new total, saved checkpoint). -/
def continuous_step (source_id : String) (current_start : ℤ)
    (total_processed : ℤ) (batch : IngestBatch) (inserted : ℤ) (now : ℤ) :
    ℤ × Option String × ℤ × Checkpoint :=
  let total1 := total_processed + inserted
  let current1 :=
    match batch.fills.getLast? with
    | some last => last.timestamp
    | none => current_start
  let cursor1 := batch.cursor
  (current1, cursor1, total1,
    { source := source_id, cursor := cursor1, last_record_ts := some current1,
      last_block_number := (batch.fills.getLast?).bind (fun f => f.block_number),
      records_processed := total1, updated_at := now, metadata := none })

/-- Order on optional timestamps: an absent timestamp precedes
everything; present timestamps compare as integers. -/
def tsLe (a b : Option ℤ) : Prop :=
  match a, b with
  | none, _ => True
  | some _, none => False
  | some x, some y => x ≤ y

/-! ## Retry loop — src/core/src/backoff.rs

`ExponentialBackoff` and `next_backoff` belong to the external
`backoff` crate; they are modelled from that crate's documented
semantics, with the system clock and the jitter RNG as oracles
(`elapsed`, `jitter` with jitter factor in [−1, 1]).  Durations are
milliseconds as `ℚ`. -/

/-- The fields of `backoff::ExponentialBackoff` set by
`create_backoff`. -/
structure ExponentialBackoff where
  current_interval : ℚ
  initial_interval : ℚ
  randomization_factor : ℚ
  multiplier : ℚ
  max_interval : ℚ
  max_elapsed_time : Option ℚ
deriving DecidableEq, Repr

/-- `create_backoff` (backoff.rs lines 6–16): base interval from
config, 0.5 jitter, 2× multiplier, 60 s cap per attempt,
`max_elapsed_time = max_retries × 60 s`. -/
def create_backoff (max_retries : ℕ) (base_delay_ms : ℕ) : ExponentialBackoff :=
  { current_interval := base_delay_ms, initial_interval := base_delay_ms,
    randomization_factor := 1 / 2, multiplier := 2,
    max_interval := 60000, max_elapsed_time := some (max_retries * 60000) }

/-- `Backoff::next_backoff` of the backoff crate: `None` once the
elapsed time exceeds `max_elapsed_time`; otherwise a jittered sleep
`current_interval × (1 + randomization_factor × jitter)` and the next
state with `current_interval` multiplied and capped at
`max_interval`. -/
def next_backoff (b : ExponentialBackoff) (elapsed_ms : ℚ) (jitter : ℚ) :
    Option (ℚ × ExponentialBackoff) :=
  match b.max_elapsed_time with
  | some m =>
    if m < elapsed_ms then none
    else
      some (b.current_interval * (1 + b.randomization_factor * jitter),
        { b with current_interval := min (b.current_interval * b.multiplier) b.max_interval })
  | none =>
    some (b.current_interval * (1 + b.randomization_factor * jitter),
      { b with current_interval := min (b.current_interval * b.multiplier) b.max_interval })

/-- The loop of `retry_with_backoff` (backoff.rs lines 29–77).  `op k`
is the `k`-th attempt's outcome (1-based); on failure, return the
error once `attempts >= max_retries` or `next_backoff` is exhausted,
otherwise sleep and retry.  `fuel` bounds the remaining iterations so
the recursion is structural; called with `fuel = max_retries` it never
runs out, because the loop recurses only while `attempts + 1 <
max_retries`. -/
def retry_aux {E A : Type _} (op : ℕ → Except E A) (max_retries : ℕ)
    (elapsed : ℕ → ℚ) (jitter : ℕ → ℚ) :
    ℕ → ExponentialBackoff → ℕ → Except E A × ℕ
  | fuel, b, attempts =>
    let k := attempts + 1
    match op k with
    | .ok v => (.ok v, k)
    | .error e =>
      if max_retries ≤ k then (.error e, k)
      else
        match next_backoff b (elapsed k) (jitter k) with
        | none => (.error e, k)
        | some (_, b1) =>
          match fuel with
          | 0 => (.error e, k)
          | fuel1 + 1 => retry_aux op max_retries elapsed jitter fuel1 b1 k

/-- `retry_with_backoff` (backoff.rs lines 18–78): run `op` with the
backoff policy from `create_backoff`; returns the result together with
the number of attempts made. -/
def retry_with_backoff {E A : Type _} (op : ℕ → Except E A) (max_retries : ℕ)
    (base_delay_ms : ℕ) (elapsed : ℕ → ℚ) (jitter : ℕ → ℚ) : Except E A × ℕ :=
  retry_aux op max_retries elapsed jitter max_retries
    (create_backoff max_retries base_delay_ms) 0

/-! ### Helper lemmas on `Except` folds -/

/-- `Except` bind on a success, definitionally. -/
lemma except_ok_bind {γ δ : Type _} (v : γ) (k : γ → Except Error δ) :
    (Except.ok v >>= k) = k v := rfl

/-- `Except` bind on an error, definitionally. -/
lemma except_error_bind {γ δ : Type _} (m : Error) (k : γ → Except Error δ) :
    ((Except.error m : Except Error γ) >>= k) = Except.error m := rfl

/-- If an append-accumulating `Except` fold succeeds, then every
element's parse succeeded (the fold short-circuits at the first
error). -/
lemma foldlM_ok_forall {α β γ : Type _} (p : α → Except Error γ) (g : List β → γ → List β) :
    ∀ (l : List α) (acc res : List β),
      l.foldlM (fun a x => do let v ← p x; Except.ok (g a v)) acc = Except.ok res →
      ∀ x ∈ l, ∃ v, p x = Except.ok v := by
  intro l
  induction l with
  | nil => intro acc res _ x hx; cases hx
  | cons y ys ih =>
    intro acc res h x hx
    rw [List.foldlM_cons] at h
    cases hp : p y with
    | error m =>
      rw [hp, except_error_bind] at h
      cases h
    | ok v =>
      rw [hp, except_ok_bind] at h
      cases hx with
      | head => exact ⟨v, hp⟩
      | tail _ hx' => exact ih _ res h x hx'

/-- `parse_side` yields Buy exactly on the upper-cased aliases `BUY`, `B`. -/
lemma parse_side_buy_iff (s : String) :
    parse_side s = Except.ok TradeSide.Buy ↔
      (toUpperStr s = "BUY" ∨ toUpperStr s = "B") := by
  constructor
  · intro h
    unfold parse_side at h
    split at h <;> simp_all
  · intro h
    rcases h with h | h <;> (unfold parse_side; rw [h]; rfl)

/-- `parse_side` yields Sell exactly on the upper-cased aliases
`SELL`, `S`, `A`. -/
lemma parse_side_sell_iff (s : String) :
    parse_side s = Except.ok TradeSide.Sell ↔
      (toUpperStr s = "SELL" ∨ toUpperStr s = "S" ∨ toUpperStr s = "A") := by
  constructor
  · intro h
    unfold parse_side at h
    split at h <;> simp_all
  · intro h
    rcases h with h | h | h <;> (unfold parse_side; rw [h]; rfl)

/-- `parse_side` rejects every other value with the `Invalid side`
validation error. -/
lemma parse_side_error_of_unknown (s : String)
    (h1 : toUpperStr s ≠ "BUY") (h2 : toUpperStr s ≠ "B")
    (h3 : toUpperStr s ≠ "SELL") (h4 : toUpperStr s ≠ "S")
    (h5 : toUpperStr s ≠ "A") :
    parse_side s = Except.error (Error.Validation ("Invalid side: " ++ s)) := by
  unfold parse_side
  split <;> simp_all

/-- Successful `parse_fill_data` pins side, price and size to the
normalised/parsed source fields. -/
lemma parse_fill_data_fields (u : String) (fd : FillData) (b : Option ℤ) (f : Fill)
    (h : parse_fill_data u fd b = Except.ok f) :
    parse_side fd.side = Except.ok f.side ∧
    parseDecimal fd.px = some f.price ∧ parseDecimal fd.sz = some f.size := by
  unfold parse_fill_data at h
  cases hs : parse_side fd.side with
  | error m => rw [hs, except_error_bind] at h; cases h
  | ok sd =>
    rw [hs, except_ok_bind] at h
    cases hp : parseDecimal fd.px with
    | none => rw [hp] at h; simp [except_error_bind, except_ok_bind] at h
    | some p =>
      rw [hp] at h
      simp only [except_error_bind, except_ok_bind] at h
      cases hz : parseDecimal fd.sz with
      | none => rw [hz] at h; simp [except_error_bind, except_ok_bind] at h
      | some z =>
        rw [hz] at h
        simp only [except_error_bind, except_ok_bind] at h
        cases ht : fromTimestampMillis fd.time with
        | none => rw [ht] at h; simp [except_error_bind, except_ok_bind] at h
        | some t =>
          rw [ht] at h
          simp only [except_error_bind, except_ok_bind] at h
          injection h with h'
          subst h'
          exact ⟨rfl, rfl, rfl⟩

/-- Successful `parse_node_fill` pins side, price and size to the
normalised/parsed source fields. -/
lemma parse_node_fill_fields (nf : NodeFill) (f : Fill)
    (h : parse_node_fill nf = Except.ok f) :
    parse_side nf.side = Except.ok f.side ∧
    parseDecimal nf.px = some f.price ∧ parseDecimal nf.sz = some f.size := by
  unfold parse_node_fill at h
  cases hs : parse_side nf.side with
  | error m => rw [hs, except_error_bind] at h; cases h
  | ok sd =>
    rw [hs, except_ok_bind] at h
    cases hp : parseDecimal nf.px with
    | none => rw [hp] at h; simp [except_error_bind, except_ok_bind] at h
    | some p =>
      rw [hp] at h
      simp only [except_error_bind, except_ok_bind] at h
      cases hz : parseDecimal nf.sz with
      | none => rw [hz] at h; simp [except_error_bind, except_ok_bind] at h
      | some z =>
        rw [hz] at h
        simp only [except_error_bind, except_ok_bind] at h
        cases ht : fromTimestampMillis nf.time with
        | none => rw [ht] at h; simp [except_error_bind, except_ok_bind] at h
        | some t =>
          rw [ht] at h
          simp only [except_error_bind, except_ok_bind] at h
          injection h with h'
          subst h'
          exact ⟨rfl, rfl, rfl⟩

/-- Successful `parse_trade_fill` pins side, price and size to the
normalised/parsed source fields. -/
lemma parse_trade_fill_fields (t : NodeTrade) (si : SideInfo) (f : Fill)
    (h : parse_trade_fill t si = Except.ok f) :
    parse_side si.side = Except.ok f.side ∧
    parseDecimal t.px = some f.price ∧ parseDecimal t.sz = some f.size := by
  unfold parse_trade_fill at h
  cases hs : parse_side si.side with
  | error m => rw [hs, except_error_bind] at h; cases h
  | ok sd =>
    rw [hs, except_ok_bind] at h
    cases hp : parseDecimal t.px with
    | none => rw [hp] at h; simp [except_error_bind, except_ok_bind] at h
    | some p =>
      rw [hp] at h
      simp only [except_error_bind, except_ok_bind] at h
      cases hz : parseDecimal t.sz with
      | none => rw [hz] at h; simp [except_error_bind, except_ok_bind] at h
      | some z =>
        rw [hz] at h
        simp only [except_error_bind, except_ok_bind] at h
        cases ht : fromTimestampMillis t.time with
        | none => rw [ht] at h; simp [except_error_bind, except_ok_bind] at h
        | some tm =>
          rw [ht] at h
          simp only [except_error_bind, except_ok_bind] at h
          injection h with h'
          subst h'
          exact ⟨rfl, rfl, rfl⟩

/-- The two schema cut-over instants are ordered. -/
lemma schemaV2From_lt_schemaV3From : schemaV2From < schemaV3From := by
  unfold schemaV2From schemaV3From
  norm_num

/-- The v3 branch of `decode_line`, reduced. -/
lemma decode_line_v3_eq (date : ℤ) (hd : schemaV3From ≤ date) (b : FillByBlock) :
    decode_line date (Line.byBlock b) =
      Except.ok (b.events.foldl
        (fun acc e =>
          match parse_fill_data e.1 e.2 (some b.block_number) with
          | .ok fill => acc ++ [fill]
          | .error _ => acc)
        []) := by
  unfold decode_line
  rw [if_pos hd]

/-- The v2 branch of `decode_line`, reduced. -/
lemma decode_line_v2_eq (date : ℤ) (h2 : schemaV2From ≤ date) (h3 : date < schemaV3From)
    (nf : NodeFill) :
    decode_line date (Line.nodeFill nf) =
      (do let fill ← parse_node_fill nf; Except.ok [fill]) := by
  unfold decode_line
  rw [if_neg (Int.not_le.mpr h3), if_pos h2]

/-- The v1 branch of `decode_line`, reduced. -/
lemma decode_line_v1_eq (date : ℤ) (h1 : date < schemaV2From) (t : NodeTrade) :
    decode_line date (Line.nodeTrade t) =
      t.side_info.foldlM
        (fun acc si => do
          let fill ← parse_trade_fill t si
          Except.ok (acc ++ [fill]))
        [] := by
  unfold decode_line
  rw [if_neg (Int.not_le.mpr (lt_trans h1 schemaV2From_lt_schemaV3From)),
    if_neg (Int.not_le.mpr h1)]

/-- In the v3 branch a failing event is skipped: dropping it from the
block leaves the decoded line unchanged. -/
lemma decode_line_v3_skip (date : ℤ) (hd : schemaV3From ≤ date) (b : FillByBlock)
    (es₁ es₂ : List (String × FillData)) (e : String × FillData) (m : Error)
    (he : b.events = es₁ ++ e :: es₂)
    (hpe : parse_fill_data e.1 e.2 (some b.block_number) = Except.error m) :
    decode_line date (Line.byBlock b) =
      decode_line date (Line.byBlock ⟨es₁ ++ es₂, b.block_number, b.block_time, b.local_time⟩) := by
  rw [decode_line_v3_eq date hd b,
    decode_line_v3_eq date hd ⟨es₁ ++ es₂, b.block_number, b.block_time, b.local_time⟩, he]
  simp only [List.foldl_append, List.foldl_cons, hpe]

/-- The v3 branch never aborts: every block decodes to `ok`. -/
lemma decode_line_v3_ok (date : ℤ) (hd : schemaV3From ≤ date) (b : FillByBlock) :
    ∃ fs, decode_line date (Line.byBlock b) = Except.ok fs :=
  ⟨_, decode_line_v3_eq date hd b⟩

/-- In the v2 branch a failing record aborts the line with its error. -/
lemma decode_line_v2_error (date : ℤ) (h2 : schemaV2From ≤ date) (h3 : date < schemaV3From)
    (nf : NodeFill) (m : Error) (hm : parse_node_fill nf = Except.error m) :
    decode_line date (Line.nodeFill nf) = Except.error m := by
  rw [decode_line_v2_eq date h2 h3 nf, hm, except_error_bind]

/-- In the v1 branch a failing `side_info` record forces the whole
line to an error (the fold short-circuits at the first failure). -/
lemma decode_line_v1_error (date : ℤ) (h1 : date < schemaV2From)
    (t : NodeTrade) (si : SideInfo) (m : Error)
    (hsi : si ∈ t.side_info) (hm : parse_trade_fill t si = Except.error m) :
    ∃ m', decode_line date (Line.nodeTrade t) = Except.error m' := by
  cases deco : decode_line date (Line.nodeTrade t) with
  | error m' => exact ⟨m', rfl⟩
  | ok fs =>
    exfalso
    rw [decode_line_v1_eq date h1 t] at deco
    obtain ⟨v, hv⟩ :=
      foldlM_ok_forall (parse_trade_fill t) (fun a v => a ++ [v]) t.side_info [] fs deco si hsi
    rw [hm] at hv
    cases hv

/-- If `parse_fills` succeeds, every line decoded successfully. -/
lemma parse_fills_ok_forall (date : ℤ) (lines : List Line) (fills : List Fill)
    (h : parse_fills date lines = Except.ok fills) :
    ∀ l ∈ lines, ∃ fs, decode_line date l = Except.ok fs := by
  unfold parse_fills at h
  exact foldlM_ok_forall (decode_line date) (fun a v => a ++ v) lines [] fills h

/-! ### Store lemmas -/

/-- Shifting the initial count out of a counted fold. -/
lemma cfold_shift {σ α : Type _} (g : σ → α → σ × ℕ) :
    ∀ (xs : List α) (s : σ) (c : ℕ),
      xs.foldl (fun a x => ((g a.1 x).1, a.2 + (g a.1 x).2)) (s, c)
        = ((cfold g xs s).1, c + (cfold g xs s).2) := by
  intro xs
  induction xs with
  | nil => intro s c; rfl
  | cons x xs ih =>
    intro s c
    rw [List.foldl_cons, ih]
    have hc : cfold g (x :: xs) s
        = ((cfold g xs (g s x).1).1, (g s x).2 + (cfold g xs (g s x).1).2) := by
      show xs.foldl (fun a y => ((g a.1 y).1, a.2 + (g a.1 y).2)) ((g s x).1, 0 + (g s x).2) = _
      rw [ih]
      simp
    rw [hc]
    simp [Nat.add_assoc]

/-- Counted fold over a cons. -/
lemma cfold_cons {σ α : Type _} (g : σ → α → σ × ℕ) (x : α) (xs : List α) (s : σ) :
    cfold g (x :: xs) s
      = ((cfold g xs (g s x).1).1, (g s x).2 + (cfold g xs (g s x).1).2) := by
  show xs.foldl (fun a y => ((g a.1 y).1, a.2 + (g a.1 y).2)) ((g s x).1, 0 + (g s x).2) = _
  rw [cfold_shift]
  simp

/-- Counted fold over an append. -/
lemma cfold_append {σ α : Type _} (g : σ → α → σ × ℕ) (a b : List α) (s : σ) :
    cfold g (a ++ b) s
      = ((cfold g b (cfold g a s).1).1,
          (cfold g a s).2 + (cfold g b (cfold g a s).1).2) := by
  show (a ++ b).foldl (fun p x => ((g p.1 x).1, p.2 + (g p.1 x).2)) (s, 0) = _
  rw [List.foldl_append]
  exact cfold_shift g b (cfold g a s).1 (cfold g a s).2

/-- `insert_rows` is a counted fold of `insert_row`. -/
lemma insert_rows_eq_cfold (t : List FillRow) (rs : List FillRow) :
    insert_rows t rs = cfold insert_row rs t := rfl

/-- Multi-row insert over an append: process `a`, then `b`. -/
lemma insert_rows_append (t : List FillRow) (a b : List FillRow) :
    insert_rows t (a ++ b)
      = ((insert_rows (insert_rows t a).1 b).1,
          (insert_rows t a).2 + (insert_rows (insert_rows t a).1 b).2) :=
  cfold_append insert_row a b t

/-- Multi-row insert over a cons. -/
lemma insert_rows_cons (t : List FillRow) (r : FillRow) (rs : List FillRow) :
    insert_rows t (r :: rs)
      = ((insert_rows (insert_row t r).1 rs).1,
          (insert_row t r).2 + (insert_rows (insert_row t r).1 rs).2) :=
  cfold_cons insert_row r rs t

/-- A present conflict key stays present through a single insert. -/
lemma has_key_insert_row (t : List FillRow) (r : FillRow) (k : ℤ × String × ℤ × ℤ × ℚ × ℚ)
    (hk : has_key t k = true) : has_key (insert_row t r).1 k = true := by
  unfold insert_row
  split
  · exact hk
  · unfold has_key at hk ⊢
    simp only [List.any_append, Bool.or_eq_true]
    exact Or.inl hk

/-- After inserting `r`, its conflict key is present. -/
lemma has_key_insert_row_self (t : List FillRow) (r : FillRow) :
    has_key (insert_row t r).1 (conflict_key r) = true := by
  unfold insert_row
  split
  · assumption
  · unfold has_key
    simp [List.any_append]

/-- A present conflict key stays present through a multi-row insert. -/
lemma has_key_insert_rows (rs : List FillRow) :
    ∀ (t : List FillRow) (k : ℤ × String × ℤ × ℤ × ℚ × ℚ),
      has_key t k = true → has_key (insert_rows t rs).1 k = true := by
  induction rs with
  | nil => intro t k hk; exact hk
  | cons r rs ih =>
    intro t k hk
    rw [insert_rows_cons]
    exact ih _ k (has_key_insert_row t r k hk)

/-- After a multi-row insert, the conflict key of every processed row
is present in the table. -/
lemma insert_rows_mem_key (rs : List FillRow) :
    ∀ (t : List FillRow) (r : FillRow), r ∈ rs →
      has_key (insert_rows t rs).1 (conflict_key r) = true := by
  induction rs with
  | nil => intro t r hr; cases hr
  | cons x rs ih =>
    intro t r hr
    rw [insert_rows_cons]
    cases hr with
    | head => exact has_key_insert_rows rs _ _ (has_key_insert_row_self t x)
    | tail _ hr' => exact ih _ r hr'

/-- A multi-row insert of rows whose conflict keys are all already
present is a no-op with zero rows affected. -/
lemma insert_rows_noop (rs : List FillRow) :
    ∀ (t : List FillRow), (∀ r ∈ rs, has_key t (conflict_key r) = true) →
      insert_rows t rs = (t, 0) := by
  induction rs with
  | nil => intro t _; rfl
  | cons r rs ih =>
    intro t hall
    rw [insert_rows_cons]
    have hr : insert_row t r = (t, 0) := by
      unfold insert_row
      rw [if_pos (hall r (List.mem_cons_self r rs))]
    rw [hr]
    simp [ih t (fun r' hr' => hall r' (List.mem_cons_of_mem r hr'))]

/-- Concatenating the chunks of a slice gives back the slice. -/
lemma chunksOf_flatten {α : Type _} (n : ℕ) (hn : 0 < n) :
    ∀ l : List α, (chunksOf n l).flatten = l := by
  have H : ∀ (k : ℕ) (l : List α), l.length ≤ k → (chunksOf n l).flatten = l := by
    intro k
    induction k with
    | zero =>
      intro l hl
      have hnil : l = [] := List.length_eq_zero.mp (Nat.le_zero.mp hl)
      subst hnil
      rw [chunksOf]
      simp
    | succ k ih =>
      intro l hl
      cases hc : l with
      | nil =>
        rw [chunksOf]
        simp
      | cons x xs =>
        subst hc
        rw [chunksOf, dif_neg]
        · rw [List.flatten_cons, ih ((x :: xs).drop n)]
          · exact List.take_append_drop n (x :: xs)
          · rw [List.length_drop]
            simp only [List.length_cons] at hl
            simp only [List.length_cons]
            omega
        · intro hor
          rcases hor with h0 | he
          · omega
          · simp at he
  intro l
  exact H l.length l le_rfl

/-! ### Pipeline lemmas -/

/-- `tsLe` is reflexive. -/
lemma tsLe_refl (a : Option ℤ) : tsLe a a := by
  cases a <;> simp [tsLe]

/-- `tsLe` is transitive. -/
lemma tsLe_trans (a b c : Option ℤ) (h1 : tsLe a b) (h2 : tsLe b c) : tsLe a c := by
  cases a with
  | none => simp [tsLe]
  | some x =>
    cases b with
    | none => simp [tsLe] at h1
    | some y =>
      cases c with
      | none => simp [tsLe] at h2
      | some z =>
        simp [tsLe] at h1 h2 ⊢
        omega

/-- One backfill consumer step never decreases `last_record_ts`. -/
lemma backfill_step_ts_mono (cp : Checkpoint) (tp : ℤ) (b : IngestBatch) :
    tsLe cp.last_record_ts ((backfill_update_checkpoint cp tp b).1).last_record_ts := by
  cases hb : b.fills.getLast? with
  | none =>
    simp only [backfill_update_checkpoint, hb]
    exact tsLe_refl _
  | some last =>
    cases hts : cp.last_record_ts with
    | none =>
      simp [backfill_update_checkpoint, hb, hts, tsLe]
    | some ts =>
      by_cases hle : ts ≤ last.timestamp
      · simp [backfill_update_checkpoint, hb, hts, hle, tsLe]
      · simp [backfill_update_checkpoint, hb, hts, hle, tsLe]

/-- Along a whole backfill run, `last_record_ts` never decreases. -/
lemma backfill_consume_ts_mono (steps : List (IngestBatch × ℤ)) :
    ∀ cp : Checkpoint, tsLe cp.last_record_ts (backfill_consume cp steps).last_record_ts := by
  induction steps with
  | nil => intro cp; exact tsLe_refl _
  | cons st rest ih =>
    intro cp
    exact tsLe_trans _ _ _ (backfill_step_ts_mono cp st.2 st.1)
      (by rw [show backfill_consume cp (st :: rest)
            = backfill_consume (backfill_update_checkpoint cp st.2 st.1).1 rest from rfl] at *
          exact ih _)

/-! ### Retry-loop lemmas -/

/-- If the first attempt succeeds, `retry_aux` returns it after one
attempt. -/
lemma retry_aux_first_ok {E A : Type} (op : ℕ → Except E A) (mr : ℕ)
    (e j : ℕ → ℚ) (fuel : ℕ) (b : ExponentialBackoff) (attempts : ℕ) (v : A)
    (h : op (attempts + 1) = Except.ok v) :
    retry_aux op mr e j fuel b attempts = (Except.ok v, attempts + 1) := by
  rw [retry_aux]
  simp only [h]

/-- When every attempt fails, `retry_aux` returns the error of its
last attempt, makes at least one and at most `max mr (attempts + 1)`
attempts. -/
lemma retry_aux_all_fail {E A : Type} (op : ℕ → Except E A) (mr : ℕ)
    (e j : ℕ → ℚ) (errf : ℕ → E) (hop : ∀ k, op k = Except.error (errf k)) :
    ∀ (fuel : ℕ) (b : ExponentialBackoff) (attempts : ℕ),
      (retry_aux op mr e j fuel b attempts).1
          = Except.error (errf ((retry_aux op mr e j fuel b attempts).2)) ∧
      attempts + 1 ≤ (retry_aux op mr e j fuel b attempts).2 ∧
      (retry_aux op mr e j fuel b attempts).2 ≤ max mr (attempts + 1) := by
  intro fuel
  induction fuel with
  | zero =>
    intro b attempts
    rw [retry_aux]
    simp only [hop]
    by_cases hk : mr ≤ attempts + 1
    · rw [if_pos hk]
      exact ⟨rfl, le_refl _, le_max_right _ _⟩
    · rw [if_neg hk]
      cases hnb : next_backoff b (e (attempts + 1)) (j (attempts + 1)) with
      | none => exact ⟨rfl, le_refl _, le_max_right _ _⟩
      | some pr => exact ⟨rfl, le_refl _, le_max_right _ _⟩
  | succ fuel1 ih =>
    intro b attempts
    rw [retry_aux]
    simp only [hop]
    by_cases hk : mr ≤ attempts + 1
    · rw [if_pos hk]
      exact ⟨rfl, le_refl _, le_max_right _ _⟩
    · rw [if_neg hk]
      cases hnb : next_backoff b (e (attempts + 1)) (j (attempts + 1)) with
      | none => exact ⟨rfl, le_refl _, le_max_right _ _⟩
      | some pr =>
        obtain ⟨ps, pb⟩ := pr
        obtain ⟨h1, h2, h3⟩ := ih pb (attempts + 1)
        refine ⟨h1, ?_, ?_⟩
        · show attempts + 1 ≤ (retry_aux op mr e j fuel1 pb (attempts + 1)).2
          omega
        · show (retry_aux op mr e j fuel1 pb (attempts + 1)).2 ≤ max mr (attempts + 1)
          omega

/-- The chunked bulk-copy fold equals one multi-row insert of the
concatenation. -/
lemma cfold_insert_chunks (exchange_id : ℤ) (market_id : String → ℤ) :
    ∀ (bs : List (List Fill)) (t : List FillRow),
      cfold (fun tt batch => insert_rows tt (batch.map (row_of_fill exchange_id market_id))) bs t
        = insert_rows t (bs.flatten.map (row_of_fill exchange_id market_id)) := by
  intro bs
  induction bs with
  | nil => intro t; rfl
  | cons chunk bs ih =>
    intro t
    rw [cfold_cons, ih]
    have hm : ((chunk :: bs).flatten).map (row_of_fill exchange_id market_id)
        = chunk.map (row_of_fill exchange_id market_id)
          ++ (bs.flatten).map (row_of_fill exchange_id market_id) := by
      simp
    rw [hm, insert_rows_append]

/-- `insert_fills` (chunks of 50 000 through the bulk-copy path) is
one multi-row insert of all rows. -/
lemma insert_fills_eq (exchange_id : ℤ) (market_id : String → ℤ)
    (fills : List Fill) (t : List FillRow) :
    insert_fills exchange_id market_id fills t
      = insert_rows t (fills.map (row_of_fill exchange_id market_id)) := by
  show cfold (fun tt chunk => insert_rows tt (chunk.map (row_of_fill exchange_id market_id)))
      (chunksOf 50000 fills) t = _
  rw [cfold_insert_chunks, chunksOf_flatten 50000 (by norm_num)]

/-- The VALUES fallback (sub-chunks of 5 000) is one multi-row insert
of all rows. -/
lemma values_path_eq (exchange_id : ℤ) (market_id : String → ℤ)
    (fills : List Fill) (t : List FillRow) :
    bulk_insert_with_values_optimized exchange_id market_id fills t
      = insert_rows t (fills.map (row_of_fill exchange_id market_id)) := by
  show cfold (fun tt batch => insert_rows tt (batch.map (row_of_fill exchange_id market_id)))
      (chunksOf 5000 fills) t = _
  rw [cfold_insert_chunks, chunksOf_flatten 5000 (by norm_num)]

end PerpsIndexer

namespace PerpsIndexer

/-- C7 (counterexample): the claim marks `Checkpoint` errors as
retryable, but `Error::is_retryable` returns `false` on a
`Checkpoint` error. -/
theorem checkpoint_error_not_retryable :
    (PerpsIndexer.Error.Checkpoint "save failed mid-run").is_retryable = false := rfl

/-- C7 (amended): `Error::is_retryable` returns `true` exactly for the
`Database`, `Http`, `RateLimit` and `Io` kinds, and `false` for every
other kind — including `Checkpoint`. -/
theorem is_retryable_iff_kind (e : Error) :
    e.is_retryable = true ↔
      (∃ s, e = .Database s) ∨ (∃ s, e = .Http s) ∨
      (∃ n, e = .RateLimit n) ∨ (∃ s, e = .IoError s) := by
  cases e <;> simp [Error.is_retryable]

/-- C7 witness: the amended theorem evaluated on a concrete database
error. -/
theorem is_retryable_iff_kind_witness :
    (Error.Database "deadlock").is_retryable = true :=
  (is_retryable_iff_kind (Error.Database "deadlock")).mpr
    (Or.inl ⟨"deadlock", rfl⟩)

/-- C3 (counterexample): in a schema-v2 (`node_fills`) batch, a record
with the unknown side `"X"` does not merely skip that record — it
aborts the whole batch with a validation error, so the following
well-formed record is never decoded. -/
theorem v2_invalid_side_aborts_batch :
    parse_fills schemaV2From
      [Line.nodeFill { user := "u1", px := "1", sz := "2", coin := "BTC", side := "X", time := 1000, fee := none, closed_pnl := none },
       Line.nodeFill { user := "u2", px := "1", sz := "2", coin := "BTC", side := "B", time := 1000, fee := none, closed_pnl := none }]
      = Except.error (Error.Validation "Invalid side: X") := by decide

/-- C3 (amended): side normalisation is case-insensitive with
`BUY`/`B` ↦ BUY and `SELL`/`S`/`A` ↦ SELL in all three schemas, and an
unknown side is a validation error; but skip-and-continue holds only
for schema-v3 events — in schema v2 and v1 a failing record aborts the
whole batch (`parse_fills` succeeds only if every line decodes). -/
theorem decoder_side_normalisation :
    (∀ s, parse_side s = Except.ok TradeSide.Buy ↔
        (toUpperStr s = "BUY" ∨ toUpperStr s = "B")) ∧
    (∀ s, parse_side s = Except.ok TradeSide.Sell ↔
        (toUpperStr s = "SELL" ∨ toUpperStr s = "S" ∨ toUpperStr s = "A")) ∧
    (∀ s, toUpperStr s ≠ "BUY" → toUpperStr s ≠ "B" → toUpperStr s ≠ "SELL" →
        toUpperStr s ≠ "S" → toUpperStr s ≠ "A" →
        parse_side s = Except.error (Error.Validation ("Invalid side: " ++ s))) ∧
    (∀ u fd b f, parse_fill_data u fd b = Except.ok f →
        parse_side fd.side = Except.ok f.side) ∧
    (∀ nf f, parse_node_fill nf = Except.ok f →
        parse_side nf.side = Except.ok f.side) ∧
    (∀ t si f, parse_trade_fill t si = Except.ok f →
        parse_side si.side = Except.ok f.side) ∧
    (∀ date b, schemaV3From ≤ date →
        ∃ fs, decode_line date (Line.byBlock b) = Except.ok fs) ∧
    (∀ date b es₁ e es₂ m, schemaV3From ≤ date → b.events = es₁ ++ e :: es₂ →
        parse_fill_data e.1 e.2 (some b.block_number) = Except.error m →
        decode_line date (Line.byBlock b) =
          decode_line date
            (Line.byBlock ⟨es₁ ++ es₂, b.block_number, b.block_time, b.local_time⟩)) ∧
    (∀ date nf m, schemaV2From ≤ date → date < schemaV3From →
        parse_node_fill nf = Except.error m →
        decode_line date (Line.nodeFill nf) = Except.error m) ∧
    (∀ date t si m, date < schemaV2From → si ∈ t.side_info →
        parse_trade_fill t si = Except.error m →
        ∃ m', decode_line date (Line.nodeTrade t) = Except.error m') ∧
    (∀ date lines fills, parse_fills date lines = Except.ok fills →
        ∀ l ∈ lines, ∃ fs, decode_line date l = Except.ok fs) := by
  refine ⟨parse_side_buy_iff, parse_side_sell_iff, parse_side_error_of_unknown,
    ?_, ?_, ?_, ?_, ?_, ?_, ?_, ?_⟩
  · intro u fd b f h; exact (parse_fill_data_fields u fd b f h).1
  · intro nf f h; exact (parse_node_fill_fields nf f h).1
  · intro t si f h; exact (parse_trade_fill_fields t si f h).1
  · intro date b hd; exact decode_line_v3_ok date hd b
  · intro date b es₁ e es₂ m hd he hpe; exact decode_line_v3_skip date hd b es₁ es₂ e m he hpe
  · intro date nf m h2 h3 hm; exact decode_line_v2_error date h2 h3 nf m hm
  · intro date t si m h1 hsi hm; exact decode_line_v1_error date h1 t si m hsi hm
  · intro date lines fills h; exact parse_fills_ok_forall date lines fills h

/-- C3 witness: the amended theorem's v2-abort conjunct applied at a
concrete date and record with side `"X"`. -/
theorem decoder_side_normalisation_witness :
    decode_line schemaV2From
      (Line.nodeFill { user := "u1", px := "1", sz := "2", coin := "BTC", side := "X", time := 1000, fee := none, closed_pnl := none })
      = Except.error (Error.Validation "Invalid side: X") :=
  decoder_side_normalisation.2.2.2.2.2.2.2.2.1 schemaV2From
    { user := "u1", px := "1", sz := "2", coin := "BTC", side := "X", time := 1000, fee := none, closed_pnl := none }
    (Error.Validation "Invalid side: X")
    le_rfl schemaV2From_lt_schemaV3From (by decide)

/-- C6 (counterexample): the decoder performs no positivity check — a
schema-v3 record with `px = "0"` decodes successfully to a `Fill`
whose price is 0, violating the claimed invariant `price > 0`. -/
theorem decoder_zero_price_fill :
    (parse_fill_data "u"
      { px := "0", sz := "1", coin := "BTC", side := "B", time := 1000, fee := none, closed_pnl := none } none).map
        (fun f => decide (0 < f.price))
      = Except.ok false := by decide

/-- C6 (amended): every `Fill` produced by any of the three schema
parsers carries exactly the parsed values of its `px`/`sz` source
strings; the decoder does not enforce positivity, so `price > 0` and
`size > 0` hold precisely when the source strings denote positive
numbers. -/
theorem decoder_price_size_parsed :
    (∀ u fd b f, parse_fill_data u fd b = Except.ok f →
        parseDecimal fd.px = some f.price ∧ parseDecimal fd.sz = some f.size) ∧
    (∀ nf f, parse_node_fill nf = Except.ok f →
        parseDecimal nf.px = some f.price ∧ parseDecimal nf.sz = some f.size) ∧
    (∀ t si f, parse_trade_fill t si = Except.ok f →
        parseDecimal t.px = some f.price ∧ parseDecimal t.sz = some f.size) ∧
    (∀ u fd b f, parse_fill_data u fd b = Except.ok f →
        ((0 < f.price ∧ 0 < f.size) ↔
          ((∃ p, parseDecimal fd.px = some p ∧ 0 < p) ∧
           (∃ z, parseDecimal fd.sz = some z ∧ 0 < z)))) ∧
    (∀ nf f, parse_node_fill nf = Except.ok f →
        ((0 < f.price ∧ 0 < f.size) ↔
          ((∃ p, parseDecimal nf.px = some p ∧ 0 < p) ∧
           (∃ z, parseDecimal nf.sz = some z ∧ 0 < z)))) ∧
    (∀ t si f, parse_trade_fill t si = Except.ok f →
        ((0 < f.price ∧ 0 < f.size) ↔
          ((∃ p, parseDecimal t.px = some p ∧ 0 < p) ∧
           (∃ z, parseDecimal t.sz = some z ∧ 0 < z)))) := by
  have posIff : ∀ (pxv szv : Option ℚ) (f : Fill),
      pxv = some f.price → szv = some f.size →
      ((0 < f.price ∧ 0 < f.size) ↔
        ((∃ p, pxv = some p ∧ 0 < p) ∧ (∃ z, szv = some z ∧ 0 < z))) := by
    intro pxv szv f hp hz
    subst hp; subst hz
    constructor
    · rintro ⟨h1, h2⟩; exact ⟨⟨f.price, rfl, h1⟩, ⟨f.size, rfl, h2⟩⟩
    · rintro ⟨⟨p, hp', h1⟩, ⟨z, hz', h2⟩⟩
      cases hp'; cases hz'
      exact ⟨h1, h2⟩
  refine ⟨?_, ?_, ?_, ?_, ?_, ?_⟩
  · intro u fd b f h; exact (parse_fill_data_fields u fd b f h).2
  · intro nf f h; exact (parse_node_fill_fields nf f h).2
  · intro t si f h; exact (parse_trade_fill_fields t si f h).2
  · intro u fd b f h
    obtain ⟨_, hp, hz⟩ := parse_fill_data_fields u fd b f h
    exact posIff _ _ f hp hz
  · intro nf f h
    obtain ⟨_, hp, hz⟩ := parse_node_fill_fields nf f h
    exact posIff _ _ f hp hz
  · intro t si f h
    obtain ⟨_, hp, hz⟩ := parse_trade_fill_fields t si f h
    exact posIff _ _ f hp hz

/-- C6 witness: the amended theorem's v2 conjunct applied to a
concrete record (`px = "2.5"`, `sz = "1"`). -/
theorem decoder_price_size_parsed_witness :
    parseDecimal "25" = some 25 ∧ parseDecimal "1" = some 1 :=
  decoder_price_size_parsed.2.1
    { user := "u", px := "25", sz := "1", coin := "BTC", side := "SELL", time := 1000, fee := none, closed_pnl := none }
    { user_address := "u", coin := "BTC", side := TradeSide.Sell, price := 25, size := 1, fee := none, closed_pnl := none, timestamp := 1000, block_number := none, source_id := none }
    (by decide)

/-- C10: for a well-formed cursor whose date and hour parse, the
argument of the unchecked `.unwrap()` on `and_hms_opt(hour, 0, 0)` is
`Some` exactly when the hour is at most 23; for hour ≥ 24 it is
`None`, so the unwrap would panic. -/
theorem cursor_unwrap_safe_iff_hour_le_23
    (ds hs : String) (d : ℤ) (h : ℕ)
    (hd : parseDateYYYYMMDD ds = some d) (hh : parseNatStr hs = some h) :
    (h ≤ 23 →
      cursor_position ds hs =
        some (some (d * 86400000 + (h : ℤ) * 3600000 + 0 * 60000 + 0 * 1000), h)) ∧
    (24 ≤ h → cursor_position ds hs = some (none, h)) := by
  constructor
  · intro hle
    unfold cursor_position
    rw [hd]
    simp only [Option.bind_eq_bind, Option.some_bind, hh]
    unfold and_hms_opt
    have hcond : (h < 24 && 0 < 60 && 0 < 60) = true := by
      simp only [Bool.and_eq_true, decide_eq_true_eq]
      omega
    rw [if_pos hcond]
    simp
  · intro hge
    unfold cursor_position
    rw [hd]
    simp only [Option.bind_eq_bind, Option.some_bind, hh]
    have hnone : and_hms_opt d h 0 0 = none := by
      unfold and_hms_opt
      rw [if_neg]
      simp only [Bool.and_eq_true, decide_eq_true_eq, not_and]
      intro h24
      omega
    rw [hnone]
    rfl

/-- C10 witness: the theorem applied to cursor parts
`"20250727"`/`"5"` (hour ≤ 23: the unwrap target is `Some`). -/
theorem cursor_unwrap_safe_iff_hour_le_23_witness :
    cursor_position "20250727" "5" =
      some (some ((20296 : ℤ) * 86400000 + (5 : ℕ) * 3600000 + 0 * 60000 + 0 * 1000), 5) :=
  (cursor_unwrap_safe_iff_hour_le_23 "20250727" "5" 20296 5
    (by decide) (by decide)).1 (by decide)

/-- C4 (counterexample): at position day 0, hour 0 (instant 0 ms) with
the wall clock at 1 800 000 ms (00:30), the next hour (3 600 000 ms)
is still in the future — the claim requires `has_more = false` — but
`fetch_page` computes `has_more = (next_date < now) = (0 < 1 800 000)
= true`. -/
theorem fetch_page_has_more_future_hour :
    (fetch_page_advance 0 0 1800000).2 = true ∧ (1800000 : ℤ) < 0 + 3600000 := by
  decide

/-- C4 (amended): the next cursor is the current position advanced by
one hour (`hour+1`, rolling to `day+1, hour 0` past 23), but
`has_more` is true iff `next_date` — the instant of the *current*
position, moved one day forward only when the hour rolls over — is
strictly before the wall clock, not iff the next hour is outside the
future. -/
theorem fetch_page_advance_spec (d : ℤ) (H : ℕ) (now : ℤ) (hH : H ≤ 23) :
    (fetch_page_advance (d * 86400000 + (H : ℤ) * 3600000) H now).1.1
        = d + (if H = 23 then 1 else 0) ∧
    (fetch_page_advance (d * 86400000 + (H : ℤ) * 3600000) H now).1.2
        = (if H = 23 then 0 else H + 1) ∧
    ((fetch_page_advance (d * 86400000 + (H : ℤ) * 3600000) H now).2 = true ↔
        d * 86400000 + (H : ℤ) * 3600000 + (if H = 23 then (86400000 : ℤ) else 0) < now) := by
  by_cases h23 : H = 23
  · subst h23
    unfold fetch_page_advance
    norm_num
    omega
  · have hlt : ¬(24 ≤ H + 1) := by omega
    have hcast : (H : ℤ) ≤ 23 := by exact_mod_cast hH
    unfold fetch_page_advance
    simp only [if_neg hlt, if_neg h23, decide_eq_true_eq]
    refine ⟨by omega, by trivial, by simp⟩

/-- C4 witness: the amended theorem at day 0, hour 23, with the wall
clock far in the future (rollover case). -/
theorem fetch_page_advance_spec_witness :
    (fetch_page_advance ((0 : ℤ) * 86400000 + (23 : ℕ) * 3600000) 23 200000000000).1.1
      = 0 + (if (23 : ℕ) = 23 then 1 else 0) :=
  (fetch_page_advance_spec 0 23 200000000000 (by decide)).1

/-- C1: `insert_fills` is idempotent under the conflict key — running
it a second time on the same list of fills, from any initial table
state, inserts 0 rows and leaves the table exactly as after the first
run.  (Rows whose conflict key is already present are suppressed by
`insert_row`, the `ON CONFLICT DO NOTHING` semantics.) -/
theorem insert_fills_idempotent (exchange_id : ℤ) (market_id : String → ℤ)
    (fills : List Fill) (t : List FillRow) :
    insert_fills exchange_id market_id fills
        (insert_fills exchange_id market_id fills t).1
      = ((insert_fills exchange_id market_id fills t).1, 0) := by
  rw [insert_fills_eq, insert_fills_eq]
  apply insert_rows_noop
  intro r hr
  exact insert_rows_mem_key _ _ r hr

/-- C2: the primary bulk-copy path and the multi-row VALUES fallback
are equivalent — for every list of fills and every initial table
state they produce the same final table and the same inserted count;
the chunked `insert_fills` wrapper agrees with both. -/
theorem copy_values_paths_equivalent (exchange_id : ℤ) (market_id : String → ℤ)
    (fills : List Fill) (t : List FillRow) :
    bulk_insert_with_copy exchange_id market_id fills t
        = bulk_insert_with_values_optimized exchange_id market_id fills t ∧
    insert_fills exchange_id market_id fills t
        = bulk_insert_with_values_optimized exchange_id market_id fills t := by
  constructor
  · rw [values_path_eq]
    rfl
  · rw [values_path_eq, insert_fills_eq]

/-- C5 (counterexample): in continuous mode the checkpoint is saved
unconditionally — with the checkpoint position at 100 ms, a batch
whose last fill has timestamp 50 ms produces a saved checkpoint with
`last_record_ts = Some 50`, a decrease (no `≥` guard is applied). -/
theorem continuous_checkpoint_ts_regression :
    ((continuous_step "s3" 100 0
        { fills := [{ user_address := "u", coin := "BTC", side := TradeSide.Buy, price := 1, size := 1, fee := none, closed_pnl := none, timestamp := 50, block_number := none, source_id := none }],
          cursor := some "20250101_2", has_more := true, bytes_downloaded := none }
        0 999).2.2.2).last_record_ts = some 50 ∧ ¬((100 : ℤ) ≤ 50) := by decide

/-- C5 (amended): in backfill mode the checkpoint is advanced exactly
when the batch's last-fill timestamp is ≥ the checkpoint's current
`last_record_ts`, so `last_record_ts` is monotonically non-decreasing
across a backfill run; in continuous mode the checkpoint is saved
unconditionally with the batch's last-fill timestamp (no monotonicity
guard). -/
theorem checkpoint_ts_monotonicity :
    (∀ (cp : Checkpoint) (tp : ℤ) (b : IngestBatch),
        tsLe cp.last_record_ts
          ((backfill_update_checkpoint cp tp b).1).last_record_ts) ∧
    (∀ (cp : Checkpoint) (steps : List (IngestBatch × ℤ)),
        tsLe cp.last_record_ts (backfill_consume cp steps).last_record_ts) ∧
    (∀ (cp : Checkpoint) (tp : ℤ) (b : IngestBatch),
        (backfill_update_checkpoint cp tp b).2 = true ↔
          ∃ last, b.fills.getLast? = some last ∧
            tsLe cp.last_record_ts (some last.timestamp)) ∧
    (∀ (source : String) (cs tp : ℤ) (b : IngestBatch) (ins now : ℤ) (last : Fill),
        b.fills.getLast? = some last →
        ((continuous_step source cs tp b ins now).2.2.2).last_record_ts
          = some last.timestamp) := by
  refine ⟨backfill_step_ts_mono, fun cp steps => backfill_consume_ts_mono steps cp, ?_, ?_⟩
  · intro cp tp b
    cases hb : b.fills.getLast? with
    | none => simp [backfill_update_checkpoint, hb]
    | some last =>
      cases hts : cp.last_record_ts with
      | none => simp [backfill_update_checkpoint, hb, hts, tsLe]
      | some ts =>
        by_cases hle : ts ≤ last.timestamp
        · simp [backfill_update_checkpoint, hb, hts, hle, tsLe]
        · simp [backfill_update_checkpoint, hb, hts, hle, tsLe]
  · intro source cs tp b ins now last hb
    simp [continuous_step, hb]

/-- C5 witness: the amended theorem's continuous-save conjunct at a
concrete batch (checkpoint saved with the batch's last timestamp). -/
theorem checkpoint_ts_monotonicity_witness :
    ((continuous_step "s3" 100 0
        { fills := [{ user_address := "u", coin := "BTC", side := TradeSide.Buy, price := 1, size := 1, fee := none, closed_pnl := none, timestamp := 150, block_number := none, source_id := none }],
          cursor := some "20250101_2", has_more := true, bytes_downloaded := none }
        0 999).2.2.2).last_record_ts = some 150 :=
  checkpoint_ts_monotonicity.2.2.2 "s3" 100 0
    { fills := [{ user_address := "u", coin := "BTC", side := TradeSide.Buy, price := 1, size := 1, fee := none, closed_pnl := none, timestamp := 150, block_number := none, source_id := none }],
      cursor := some "20250101_2", has_more := true, bytes_downloaded := none }
    0 999
    { user_address := "u", coin := "BTC", side := TradeSide.Buy, price := 1, size := 1, fee := none, closed_pnl := none, timestamp := 150, block_number := none, source_id := none }
    (by decide)

/-- C9 (counterexample): in backfill mode an empty batch does not
advance the checkpoint's cursor — `should_update_checkpoint` is false,
so the whole checkpoint (cursor included) is left untouched, contrary
to the claimed cursor advance. -/
theorem backfill_empty_batch_keeps_cursor :
    (backfill_update_checkpoint
        { source := "s3", cursor := some "20250101_1", last_record_ts := some 100, last_block_number := none, records_processed := 5, updated_at := 0, metadata := none }
        7
        { fills := [], cursor := some "20250101_2", has_more := true, bytes_downloaded := none }).1
      = { source := "s3", cursor := some "20250101_1", last_record_ts := some 100, last_block_number := none, records_processed := 5, updated_at := 0, metadata := none }
    ∧ (some "20250101_1" : Option String) ≠ some "20250101_2" := by decide

/-- C9 (amended): on an empty batch the backfill consumer leaves the
checkpoint entirely unchanged (cursor not advanced, timestamp
unchanged, no update flagged); only in continuous mode does the
cursor advance to the batch's next cursor while the last-record
timestamp stays at the current position. -/
theorem empty_batch_checkpoint_behaviour :
    (∀ (cp : Checkpoint) (tp : ℤ) (b : IngestBatch), b.fills = [] →
        backfill_update_checkpoint cp tp b = (cp, false)) ∧
    (∀ (source : String) (cs tp : ℤ) (b : IngestBatch) (ins now : ℤ), b.fills = [] →
        ((continuous_step source cs tp b ins now).2.2.2).cursor = b.cursor ∧
        ((continuous_step source cs tp b ins now).2.2.2).last_record_ts = some cs) := by
  constructor
  · intro cp tp b hb
    have hlast : b.fills.getLast? = none := by rw [hb]; rfl
    simp [backfill_update_checkpoint, hlast]
  · intro source cs tp b ins now hb
    have hlast : b.fills.getLast? = none := by rw [hb]; rfl
    constructor <;> simp [continuous_step, hlast]

/-- C9 witness: the amended theorem's backfill conjunct applied to a
concrete checkpoint and empty batch. -/
theorem empty_batch_checkpoint_behaviour_witness :
    backfill_update_checkpoint
        { source := "s3", cursor := some "20250101_1", last_record_ts := some 100, last_block_number := none, records_processed := 5, updated_at := 0, metadata := none }
        7
        { fills := [], cursor := some "20250101_2", has_more := true, bytes_downloaded := none }
      = ({ source := "s3", cursor := some "20250101_1", last_record_ts := some 100, last_block_number := none, records_processed := 5, updated_at := 0, metadata := none }, false) :=
  empty_batch_checkpoint_behaviour.1
    { source := "s3", cursor := some "20250101_1", last_record_ts := some 100, last_block_number := none, records_processed := 5, updated_at := 0, metadata := none }
    7
    { fills := [], cursor := some "20250101_2", has_more := true, bytes_downloaded := none }
    rfl

/-- C8 (counterexample): with `max_retries = 0` a failing operation is
still attempted once — `retry_with_backoff` makes 1 attempt, not "at
most max_retries = 0" attempts. -/
theorem retry_zero_retries_one_attempt :
    retry_with_backoff (fun _ => (Except.error "boom" : Except String ℕ)) 0 1000
        (fun _ => 0) (fun _ => 0)
      = (Except.error "boom", 1) ∧ ¬((1 : ℕ) ≤ 0) := by
  constructor
  · rw [retry_with_backoff, retry_aux]
    rfl
  · decide

/-- C8 (amended): `retry_with_backoff` returns the first successful
result unchanged after one attempt; when every attempt fails it makes
at least one and at most `max max_retries 1` attempts (so at most
`max_retries` whenever `max_retries ≥ 1`) and returns the error of its
last attempt; the policy built by `create_backoff` has initial
interval `retry_base_delay_ms`, randomization factor 0.5, multiplier
2, per-attempt interval cap 60 s and `max_elapsed_time = max_retries ×
60 s`; `next_backoff` is exhausted once the elapsed time exceeds that
bound, keeps the interval capped at `max_interval`, and with jitter
factor in [−1, 1] sleeps at most 1.5 × the current interval. -/
theorem retry_with_backoff_spec :
    (∀ (E A : Type) (op : ℕ → Except E A) (mr bd : ℕ) (e j : ℕ → ℚ) (v : A),
        op 1 = Except.ok v →
        retry_with_backoff op mr bd e j = (Except.ok v, 1)) ∧
    (∀ (E A : Type) (op : ℕ → Except E A) (mr bd : ℕ) (e j : ℕ → ℚ) (errf : ℕ → E),
        (∀ k, op k = Except.error (errf k)) →
        (retry_with_backoff op mr bd e j).1
            = Except.error (errf ((retry_with_backoff op mr bd e j).2)) ∧
        1 ≤ (retry_with_backoff op mr bd e j).2 ∧
        (retry_with_backoff op mr bd e j).2 ≤ max mr 1) ∧
    (∀ mr bd : ℕ, create_backoff mr bd =
        { current_interval := bd, initial_interval := bd,
          randomization_factor := 1 / 2, multiplier := 2,
          max_interval := 60000, max_elapsed_time := some (mr * 60000) }) ∧
    (∀ (b : ExponentialBackoff) (el jt m : ℚ),
        b.max_elapsed_time = some m → m < el → next_backoff b el jt = none) ∧
    (∀ (b : ExponentialBackoff) (el jt s : ℚ) (b1 : ExponentialBackoff),
        next_backoff b el jt = some (s, b1) →
        b1.current_interval ≤ b.max_interval ∧
        (b.randomization_factor = 1 / 2 → -1 ≤ jt → jt ≤ 1 →
          0 ≤ b.current_interval → s ≤ b.current_interval * (3 / 2))) := by
  refine ⟨?_, ?_, ?_, ?_, ?_⟩
  · intro E A op mr bd e j v h
    exact retry_aux_first_ok op mr e j mr (create_backoff mr bd) 0 v h
  · intro E A op mr bd e j errf hop
    exact retry_aux_all_fail op mr e j errf hop mr (create_backoff mr bd) 0
  · intro mr bd
    rfl
  · intro b el jt m hm hlt
    unfold next_backoff
    rw [hm]
    simp [hlt]
  · intro b el jt s b1 hnb
    unfold next_backoff at hnb
    have hparse : s = b.current_interval * (1 + b.randomization_factor * jt) ∧
        b1 = { b with current_interval := min (b.current_interval * b.multiplier) b.max_interval } := by
      cases hme : b.max_elapsed_time with
      | none =>
        rw [hme] at hnb
        simp only [Option.some.injEq, Prod.mk.injEq] at hnb
        exact ⟨hnb.1.symm, hnb.2.symm⟩
      | some m =>
        rw [hme] at hnb
        by_cases hlt : m < el
        · simp [hlt] at hnb
        · simp only [hlt, if_false, if_neg, Option.some.injEq, Prod.mk.injEq] at hnb
          exact ⟨hnb.1.symm, hnb.2.symm⟩
    obtain ⟨hs, hb1⟩ := hparse
    constructor
    · rw [hb1]
      exact min_le_right _ _
    · intro hrf hj1 hj2 hcur
      rw [hs, hrf]
      have hfac : 1 + (1 / 2 : ℚ) * jt ≤ 3 / 2 := by linarith
      calc b.current_interval * (1 + 1 / 2 * jt)
          ≤ b.current_interval * (3 / 2) := by
            exact mul_le_mul_of_nonneg_left hfac hcur

/-- C8 witness: the amended theorem's first conjunct at a concrete
operation succeeding immediately. -/
theorem retry_with_backoff_spec_witness :
    retry_with_backoff (fun _ => (Except.ok 42 : Except String ℕ)) 3 1000
        (fun _ => 0) (fun _ => 0)
      = (Except.ok 42, 1) :=
  retry_with_backoff_spec.1 String ℕ (fun _ => Except.ok 42) 3 1000
    (fun _ => 0) (fun _ => 0) 42 rfl

end PerpsIndexer
